import Mathlib

/-!
Verification development for the data-accounting-external-verifier repository
(Aqua protocol chain builder and verifier).

The JavaScript source delegates its hashing primitive to the external
js-sha3 library (`sha3.sha3_512`), which computes the FIPS-202 SHA3-512
digest of the UTF-8 bytes of its string argument and renders it as
lowercase hexadecimal. We embed that primitive as an executable Lean
function over `Nat` lane arithmetic (explicit `% 2^64`), anchored below to
the published FIPS-202 test vector for the empty message.
-/

namespace Aqua

/-- The modulus for 64-bit Keccak lane arithmetic. -/
def w64 : Nat := 18446744073709551616

/-- Left rotation of a 64-bit lane by an amount below 64. -/
def rotl64 (x n : Nat) : Nat :=
  ((x * 2 ^ n) % w64) ||| (x / 2 ^ (64 - n))

/-- Read a lane of the 25-lane Keccak state (index `x + 5*y`). -/
def lane (s : List Nat) (i : Nat) : Nat := s.getD i 0

/-- Column parities of the theta step. -/
def thetaC (s : List Nat) : List Nat :=
  (List.range 5).map (fun x =>
    lane s x ^^^ lane s (x + 5) ^^^ lane s (x + 10) ^^^ lane s (x + 15) ^^^ lane s (x + 20))

/-- Column adjustments of the theta step. -/
def thetaD (c : List Nat) : List Nat :=
  (List.range 5).map (fun x => lane c ((x + 4) % 5) ^^^ rotl64 (lane c ((x + 1) % 5)) 1)

/-- The theta step of Keccak-f[1600]. -/
def theta (s : List Nat) : List Nat :=
  let d := thetaD (thetaC s)
  (List.range 25).map (fun i => lane s i ^^^ lane d (i % 5))

/-- The pi orbit of lane coordinates starting at (1, 0): each step maps
`(x, y)` to `(y, (2x + 3y) % 5)`, visiting every lane but (0, 0) once within
24 steps. -/
def rhoOrbit : Nat → Nat × Nat
  | 0 => (1, 0)
  | t + 1 =>
    let p := rhoOrbit t
    (p.2, (2 * p.1 + 3 * p.2) % 5)

/-- Rho rotation offsets, indexed by source lane `x + 5*y`: the lane reached
at orbit step t rotates by the triangular number (t+1)(t+2)/2 mod 64, and lane
(0, 0) does not rotate. -/
def rhoOffsets : List Nat :=
  (List.range 25).map (fun i =>
    match (List.range 24).find? (fun t => (rhoOrbit t).1 + 5 * (rhoOrbit t).2 == i) with
    | some t => (t + 1) * (t + 2) / 2 % 64
    | none => 0)

/-- Source lane feeding destination lane `j` under the pi permutation:
the inverse of `(x, y) ↦ (y, (2x + 3y) % 5)` on lane indices. -/
def piSrc (j : Nat) : Nat := ((j % 5 + 3 * (j / 5)) % 5) + 5 * (j % 5)

/-- The combined rho and pi steps of Keccak-f[1600]. -/
def rhoPi (s : List Nat) : List Nat :=
  (List.range 25).map (fun j => rotl64 (lane s (piSrc j)) (lane rhoOffsets (piSrc j)))

/-- The chi step of Keccak-f[1600]; complement is xor with the all-ones lane. -/
def chi (s : List Nat) : List Nat :=
  (List.range 25).map (fun i =>
    let x := i % 5
    let y := i / 5
    lane s i ^^^ (((w64 - 1) ^^^ lane s ((x + 1) % 5 + 5 * y)) &&& lane s ((x + 2) % 5 + 5 * y)))

/-- State of the degree-8 Keccak LFSR (polynomial x^8 + x^6 + x^5 + x^4 + 1,
feedback mask 0x71) after t steps, starting from 1. -/
def lfsrR : Nat → Nat
  | 0 => 1
  | t + 1 =>
    let r := lfsrR t * 2
    if 256 ≤ r then (r ^^^ 113) % 256 else r

/-- The round-constant bit rc(t) of FIPS 202. -/
def rcBit (t : Nat) : Nat := lfsrR t % 2

/-- Round constant of round i: bit rc(7i + j) placed at lane position
2^j - 1 for j from 0 to 6. -/
def keccakRCAt (i : Nat) : Nat :=
  (List.range 7).foldl (fun acc j => acc + rcBit (7 * i + j) * 2 ^ (2 ^ j - 1)) 0

/-- The 24 Keccak-f[1600] round constants of the iota step. -/
def keccakRC : List Nat := (List.range 24).map keccakRCAt

/-- One round of Keccak-f[1600]: theta, rho, pi, chi, then iota. -/
def keccakRound (s : List Nat) (rc : Nat) : List Nat :=
  let t := chi (rhoPi (theta s))
  (t.headD 0 ^^^ rc) :: t.tail

/-- The full 24-round Keccak-f[1600] permutation. -/
def keccakF (s : List Nat) : List Nat := keccakRC.foldl keccakRound s

/-- Multi-rate padding for SHA3 (domain byte 0x06, final bit 0x80) at rate 72. -/
def sha3Pad (input : List Nat) : List Nat :=
  let m := input.length % 72
  if m = 71 then input ++ [134]
  else input ++ [6] ++ List.replicate (70 - m) 0 ++ [128]

/-- Little-endian interpretation of up to eight bytes as one 64-bit lane. -/
def leLane (bs : List Nat) : Nat :=
  bs.foldr (fun b acc => acc * 256 + b) 0

/-- Xor one 72-byte block into the state and permute. -/
def absorbBlock (s : List Nat) (block : List Nat) : List Nat :=
  keccakF ((List.range 25).map (fun i =>
    lane s i ^^^ (if i < 9 then leLane ((block.drop (8 * i)).take 8) else 0)))

/-- Absorb `n` consecutive 72-byte blocks of `bytes`. -/
def absorbBlocks : Nat → List Nat → List Nat → List Nat
  | 0, s, _ => s
  | n + 1, s, bytes => absorbBlocks n (absorbBlock s (bytes.take 72)) (bytes.drop 72)

/-- The SHA3-512 sponge state after absorbing the padded input. -/
def sha3Absorb (input : List Nat) : List Nat :=
  let p := sha3Pad input
  absorbBlocks (p.length / 72) (List.replicate 25 0) p

/-- The eight little-endian bytes of one lane. -/
def laneBytes (x : Nat) : List Nat :=
  (List.range 8).map (fun k => x / 256 ^ k % 256)

/-- The 64-byte SHA3-512 digest squeezed from a state. -/
def sha3Digest (s : List Nat) : List Nat :=
  ((List.range 8).map (fun i => laneBytes (lane s i))).flatten

/-- Lowercase hexadecimal digit characters. -/
def hexDigitChars : List Char := "0123456789abcdef".data

/-- Two lowercase hex characters of one byte. -/
def byteHex (b : Nat) : List Char :=
  [hexDigitChars.getD (b / 16 % 16) '0', hexDigitChars.getD (b % 16) '0']

/-- Lowercase hex rendering of a byte list. -/
def bytesToHex (bs : List Nat) : String :=
  String.mk ((bs.map byteHex).flatten)

/-- UTF-8 encoding of one character, as byte values. -/
def utf8Bytes (c : Char) : List Nat :=
  let n := c.toNat
  if n < 128 then [n]
  else if n < 2048 then [192 + n / 64, 128 + n % 64]
  else if n < 65536 then [224 + n / 4096, 128 + n / 64 % 64, 128 + n % 64]
  else [240 + n / 262144, 128 + n / 4096 % 64, 128 + n / 64 % 64, 128 + n % 64]

/-- UTF-8 byte sequence of a string. -/
def strBytes (s : String) : List Nat := (s.data.map utf8Bytes).flatten

/-- SHA3-512 digest of a raw byte sequence, as lowercase hex. This embeds the
js-sha3 primitive applied to a Buffer (raw bytes). -/
def sha3_512Bytes (bs : List Nat) : String := bytesToHex (sha3Digest (sha3Absorb bs))

/-- SHA3-512 digest of the UTF-8 bytes of a string, as lowercase hex. This embeds
the js-sha3 primitive `sha3.sha3_512` applied to a JavaScript string. -/
def sha3_512 (s : String) : String := sha3_512Bytes (strBytes s)

set_option maxRecDepth 100000 in
/-- Anchor: the FIPS-202 SHA3-512 test vector for the empty message. -/
theorem sha3_512_empty_vector :
    sha3_512 "" = "a69f73cca23a9ac5c8b567dc185a756e97c982164fe25859e0d1dcc1475c80a615b2123af1f5f94c11e3e9402c3ac558f500199d95b6d3e301758586281dcd26" := by
  decide

/-- Each lane contributes exactly eight digest bytes. -/
theorem laneBytes_length (x : Nat) : (laneBytes x).length = 8 := by
  simp [laneBytes]

/-- The squeezed digest is exactly 64 bytes. -/
theorem sha3Digest_length (s : List Nat) : (sha3Digest s).length = 64 := by
  rw [sha3Digest, show List.range 8 = [0, 1, 2, 3, 4, 5, 6, 7] from rfl]
  simp [laneBytes_length]

/-- Hex rendering doubles the byte count. -/
theorem bytesToHex_length (bs : List Nat) : (bytesToHex bs).length = 2 * bs.length := by
  induction bs with
  | nil => rfl
  | cons b rest ih =>
    show ((byteHex b ++ (rest.map byteHex).flatten).length) = 2 * (rest.length + 1)
    have h : ((rest.map byteHex).flatten).length = 2 * rest.length := ih
    simp [byteHex, h]
    omega

/-- A SHA3-512 hex digest always has 128 characters. -/
theorem sha3_512Bytes_length (bs : List Nat) : (sha3_512Bytes bs).length = 128 := by
  rw [sha3_512Bytes, bytesToHex_length, sha3Digest_length]

/-- A SHA3-512 hex digest of a string always has 128 characters. -/
theorem sha3_512_length (s : String) : (sha3_512 s).length = 128 := by
  rw [sha3_512, sha3_512Bytes_length]

/-- A SHA3-512 hex digest is never the empty string. -/
theorem sha3_512_ne_empty (s : String) : sha3_512 s ≠ "" := by
  intro h
  have := sha3_512_length s
  rw [h] at this
  simp at this

/-- Indexing the hex alphabet always lands in the hex alphabet. -/
theorem hexDigitChars_getD_mem (n : Nat) : hexDigitChars.getD n '0' ∈ hexDigitChars := by
  rcases Nat.lt_or_ge n 16 with h | h
  · interval_cases n <;> decide
  · rw [List.getD_eq_default]
    · decide
    · have h16 : hexDigitChars.length = 16 := rfl
      omega

/-- Both characters of a byte rendering are lowercase hex digits. -/
theorem byteHex_mem (b : Nat) : ∀ c ∈ byteHex b, c ∈ hexDigitChars := by
  intro c hc
  simp only [byteHex, List.mem_cons, List.not_mem_nil, or_false] at hc
  rcases hc with rfl | rfl
  · exact hexDigitChars_getD_mem (b / 16 % 16)
  · exact hexDigitChars_getD_mem (b % 16)

/-- Every character of a SHA3-512 hex digest is a lowercase hex digit. -/
theorem sha3_512_lowerHex (s : String) : ∀ c ∈ (sha3_512 s).data, c ∈ hexDigitChars := by
  intro c hc
  have hc2 : c ∈ ((sha3Digest (sha3Absorb (strBytes s))).map byteHex).flatten := hc
  rw [List.mem_flatten] at hc2
  rcases hc2 with ⟨l, hl, hcl⟩
  rw [List.mem_map] at hl
  rcases hl with ⟨b, _, rfl⟩
  exact byteHex_mem b c hcl

/-- Embeds getHashSum from src/index.js lines 87 to 92, identical to the one in
src/dist/index.js: the empty string maps to itself, any other string to its
SHA3-512 lowercase hex digest. -/
def getHashSum (content : String) : String :=
  if content == "" then "" else sha3_512 content

/-- Embeds getHashSum from src/verifier.js lines 20 to 22, which has no
empty-string shortcut: every input, including the empty string, is hashed. -/
def verifierGetHashSum (content : String) : String :=
  sha3_512 content

/-- Embeds the hashing primitive applied to a Buffer of raw file bytes, as in
the file and form branches of createNewRevision in src/notarize.js: a Buffer is
never strictly equal to the empty string, so the empty shortcut of getHashSum
cannot fire and the digest is always computed. File bytes are modelled as the
UTF-8 bytes of a Lean string. -/
def getHashSumBuffer (content : String) : String := sha3_512 content

set_option maxRecDepth 100000 in
/-- C8 counterexample: the claim says the hashing primitive getHashSum maps the
empty string to the empty string, but the getHashSum defined in src/verifier.js
(one of the cited implementations) hashes the empty string to the SHA3-512
digest of the empty message, which is not empty. -/
theorem claim8_counterexample : verifierGetHashSum "" ≠ "" := by
  rw [verifierGetHashSum, sha3_512_empty_vector]
  decide

/-- C8 amended: the getHashSum of src/index.js and src/dist/index.js maps the
empty string to the empty string and every non-empty input to its SHA3-512
digest encoded as lowercase hex (128 hex-digit characters); the getHashSum of
src/verifier.js applies SHA3-512 to every input, including the empty string. -/
theorem claim8_amended (s : String) :
    getHashSum "" = "" ∧
    (s ≠ "" → getHashSum s = sha3_512 s) ∧
    verifierGetHashSum s = sha3_512 s ∧
    (sha3_512 s).length = 128 ∧
    (∀ c ∈ (sha3_512 s).data, c ∈ hexDigitChars) := by
  refine ⟨rfl, ?_, rfl, sha3_512_length s, sha3_512_lowerHex s⟩
  intro h
  simp [getHashSum, h]

/-- C8 witness: the amended theorem applied at a concrete non-empty input. -/
theorem claim8_amended_witness :
    ("abc" : String) ≠ "" ∧ getHashSum "abc" = sha3_512 "abc" :=
  ⟨by decide, (claim8_amended "abc").2.1 (by decide)⟩

/-- One node of a structured Merkle proof. A null, undefined or missing leaf of
the JavaScript object is modelled as the empty string, which is falsy exactly
like null in every test the source performs on a leaf. -/
structure MerkleNode where
  left_leaf : String
  right_leaf : String
  successor : String
deriving DecidableEq

/-- JavaScript truthiness of the prevSuccessor variable of
verifyMerkleIntegrity: null (modelled as none) and the empty string are falsy. -/
def jsTruthyStr : Option String → Bool
  | none => false
  | some s => s != ""

/-- Embeds the successor computation of verifyMerkleIntegrity in
src/dist/index.js lines 217 to 224: a falsy leaf promotes the other leaf
unchanged, otherwise the successor is the hash of the concatenation. -/
def calcSuccessor (node : MerkleNode) : String :=
  if node.left_leaf == "" then node.right_leaf
  else if node.right_leaf == "" then node.left_leaf
  else getHashSum (node.left_leaf ++ node.right_leaf)

/-- The leaf value the loop of verifyMerkleIntegrity compares against the
current node's pair: the threaded prevSuccessor when truthy, otherwise the
revision's verification hash. -/
def expectedInput (verificationHash : String) (prevSuccessor : Option String) : String :=
  if jsTruthyStr prevSuccessor then prevSuccessor.getD "" else verificationHash

/-- Embeds the traversal loop of verifyMerkleIntegrity in src/dist/index.js
lines 204 to 230, with prevSuccessor threaded explicitly. -/
def merkleLoop (verificationHash : String) : Option String → List MerkleNode → Bool
  | _, [] => true
  | prevSuccessor, node :: rest =>
    if !([node.left_leaf, node.right_leaf].contains (expectedInput verificationHash prevSuccessor)) then
      false
    else if calcSuccessor node != node.successor then false
    else merkleLoop verificationHash (some node.successor) rest

/-- Embeds verifyMerkleIntegrity from src/dist/index.js lines 200 to 231. The
older variant in src/index.js lines 175 to 204 differs only in lacking the
empty-branch rejection and the falsy-leaf promotion. -/
def verifyMerkleIntegrity (merkleBranch : List MerkleNode) (verificationHash : String) : Bool :=
  if merkleBranch.length == 0 then false
  else merkleLoop verificationHash none merkleBranch

/-- Recursive form of the conditions the traversal enforces. -/
def branchOKRec (verificationHash : String) : String → List MerkleNode → Prop
  | _, [] => True
  | e, node :: rest =>
    (e = node.left_leaf ∨ e = node.right_leaf) ∧ node.successor = calcSuccessor node ∧
      branchOKRec verificationHash
        (if node.successor = "" then verificationHash else node.successor) rest

/-- The value required to appear among the leaves of node i: the revision's
verification hash at step 0, afterwards the previous node's successor, an empty
previous successor falling back (by JavaScript falsiness) to the revision's
verification hash. -/
def expectedLeafAt (verificationHash : String) (branch : List MerkleNode) (i : Nat) : String :=
  match i with
  | 0 => verificationHash
  | j + 1 =>
    match branch.get? j with
    | some n => if n.successor = "" then verificationHash else n.successor
    | none => verificationHash

/-- Indexed statement of the traversal conditions: at every position the
expected value appears in the pair of leaves and the recorded successor is the
computed one. -/
def branchTraversalOK (verificationHash : String) (branch : List MerkleNode) : Prop :=
  ∀ i, ∀ h : i < branch.length,
    (expectedLeafAt verificationHash branch i = (branch.get ⟨i, h⟩).left_leaf ∨
     expectedLeafAt verificationHash branch i = (branch.get ⟨i, h⟩).right_leaf) ∧
    (branch.get ⟨i, h⟩).successor = calcSuccessor (branch.get ⟨i, h⟩)

/-- On a cons cell the expected value at a successor position shifts to the
tail, the first tail position reading the head's successor. -/
theorem expectedLeafAt_cons (vh : String) (n : MerkleNode) (rest : List MerkleNode) (i : Nat) :
    expectedLeafAt vh (n :: rest) (i + 1) =
      (if i = 0 then (if n.successor = "" then vh else n.successor)
       else expectedLeafAt vh rest i) := by
  match i with
  | 0 => simp [expectedLeafAt]
  | j + 1 => simp [expectedLeafAt]

/-- The truthiness fallback computed by the loop for a present successor. -/
theorem expectedInput_some (vh s : String) :
    expectedInput vh (some s) = (if s = "" then vh else s) := by
  by_cases h : s = "" <;> simp [expectedInput, jsTruthyStr, h]

/-- The loop accepts exactly the recursive traversal conditions, started at the
loop's current expected value. -/
theorem merkleLoop_eq_true_iff (vh : String) (branch : List MerkleNode) :
    ∀ prev, merkleLoop vh prev branch = true ↔
      branchOKRec vh (expectedInput vh prev) branch := by
  induction branch with
  | nil => intro prev; simp [merkleLoop, branchOKRec]
  | cons n rest ih =>
    intro prev
    have hstep : merkleLoop vh prev (n :: rest) =
        (if !([n.left_leaf, n.right_leaf].contains (expectedInput vh prev)) then false
         else if calcSuccessor n != n.successor then false
         else merkleLoop vh (some n.successor) rest) := rfl
    rw [hstep]
    simp only [branchOKRec]
    by_cases hc : expectedInput vh prev = n.left_leaf ∨ expectedInput vh prev = n.right_leaf
    · have hmem : expectedInput vh prev ∈ [n.left_leaf, n.right_leaf] := by
        simpa using hc
      have h1 : (!([n.left_leaf, n.right_leaf].contains (expectedInput vh prev))) = false := by
        simp [hmem]
      rw [h1, if_neg Bool.false_ne_true]
      by_cases hs : n.successor = calcSuccessor n
      · have hbne : (calcSuccessor n != n.successor) = false := by
          rw [bne_eq_false_iff_eq]
          exact hs.symm
        rw [hbne, if_neg Bool.false_ne_true]
        rw [ih (some n.successor), expectedInput_some]
        constructor
        · intro hx
          exact ⟨hc, hs, hx⟩
        · rintro ⟨_, _, hx⟩
          exact hx
      · have hbne : (calcSuccessor n != n.successor) = true := by
          rw [bne_iff_ne]
          exact fun h2 => hs h2.symm
        rw [hbne, if_pos rfl]
        constructor
        · intro hx
          exact absurd hx Bool.false_ne_true
        · rintro ⟨_, hq, _⟩
          exact absurd hq hs
    · have h1 : (!([n.left_leaf, n.right_leaf].contains (expectedInput vh prev))) = true := by
        simp [hc]
      rw [h1, if_pos rfl]
      constructor
      · intro hx
        exact absurd hx Bool.false_ne_true
      · rintro ⟨hp, _, _⟩
        exact absurd hp hc

/-- The recursive traversal conditions agree with the indexed ones. -/
theorem branchOKRec_iff_indexed (vh : String) :
    ∀ (branch : List MerkleNode) (e : String),
      branchOKRec vh e branch ↔
        ∀ i, ∀ h : i < branch.length,
          ((if i = 0 then e else expectedLeafAt vh branch i) = (branch.get ⟨i, h⟩).left_leaf ∨
           (if i = 0 then e else expectedLeafAt vh branch i) = (branch.get ⟨i, h⟩).right_leaf) ∧
          (branch.get ⟨i, h⟩).successor = calcSuccessor (branch.get ⟨i, h⟩) := by
  intro branch
  induction branch with
  | nil => intro e; simp [branchOKRec]
  | cons n rest ih =>
    intro e
    rw [show branchOKRec vh e (n :: rest) =
        ((e = n.left_leaf ∨ e = n.right_leaf) ∧ n.successor = calcSuccessor n ∧
          branchOKRec vh (if n.successor = "" then vh else n.successor) rest) from rfl]
    rw [ih]
    constructor
    · rintro ⟨hmem, hsucc, hrest⟩ i hi
      match i with
      | 0 => simpa using ⟨hmem, hsucc⟩
      | j + 1 =>
        have hj : j < rest.length := Nat.lt_of_succ_lt_succ hi
        have hr := hrest j hj
        rw [expectedLeafAt_cons]
        simpa using hr
    · intro h
      have h0 := h 0 (Nat.succ_pos _)
      simp at h0
      refine ⟨h0.1, h0.2, fun j hj => ?_⟩
      have hr := h (j + 1) (Nat.succ_lt_succ hj)
      rw [expectedLeafAt_cons] at hr
      simpa using hr

/-- C1 counterexample branch: two self-consistent promotion nodes whose final
successor is unrelated to any Merkle root. -/
def claim1Branch : List MerkleNode :=
  [⟨"aa", "", "aa"⟩, ⟨"aa", "", "aa"⟩]

/-- The successor of the last node of a branch, which the claim requires to
equal the witness Merkle root. -/
def finalSuccessor (branch : List MerkleNode) : Option String :=
  branch.getLast?.map MerkleNode.successor

/-- C1 counterexample: the claim says the traversal verifier accepts only if
the final successor equals the witness Merkle root, but verifyMerkleIntegrity
accepts this branch of length 2 whose final successor "aa" differs from the
root "bb" (the function never sees, much less compares, the root). -/
theorem claim1_counterexample :
    verifyMerkleIntegrity claim1Branch "aa" = true ∧
    1 < claim1Branch.length ∧
    finalSuccessor claim1Branch ≠ some "bb" := by
  decide

/-- C1 amended: for proofs of length above 1, the traversal verifier accepts
iff, starting from the revision's verification hash, each node's leaf pair
contains the expected value (the previous successor, or the revision's hash at
step 0 and after an empty successor) and each node's successor equals the hash
of the concatenated leaves (a falsy leaf promoting the other leaf unchanged);
the final successor is not compared against the witness Merkle root. -/
theorem claim1_amended (branch : List MerkleNode) (vh : String) (hlen : 1 < branch.length) :
    verifyMerkleIntegrity branch vh = true ↔ branchTraversalOK vh branch := by
  have hne : ¬ ((branch.length == 0) = true) := by
    rw [beq_iff_eq]
    omega
  rw [verifyMerkleIntegrity, if_neg hne]
  rw [merkleLoop_eq_true_iff]
  rw [show expectedInput vh none = vh from rfl]
  rw [branchOKRec_iff_indexed]
  constructor
  · intro h i hi
    have := h i hi
    match i with
    | 0 => simpa [expectedLeafAt] using this
    | j + 1 => simpa using this
  · intro h i hi
    have := h i hi
    match i with
    | 0 => simpa [expectedLeafAt] using this
    | j + 1 => simpa using this

/-- C1 witness branch: a two-node branch exercising the hashing path. -/
def claim1WitnessBranch : List MerkleNode :=
  [⟨"aa", "bb", getHashSum "aabb"⟩, ⟨getHashSum "aabb", "cc", getHashSum (getHashSum "aabb" ++ "cc")⟩]

set_option maxRecDepth 100000 in
/-- C1 witness: the amended theorem applied to a concrete branch of length 2. -/
theorem claim1_amended_witness :
    1 < claim1WitnessBranch.length ∧
    (verifyMerkleIntegrity claim1WitnessBranch "aa" = true ↔
      branchTraversalOK "aa" claim1WitnessBranch) :=
  ⟨by decide, claim1_amended claim1WitnessBranch "aa" (by decide)⟩

/-- JavaScript String.prototype.toLowerCase on the ASCII strings the source
compares (addresses and hex digests), as a character-wise lowering that
reduces in the kernel. -/
def jsToLower (s : String) : String := String.mk (s.data.map Char.toLower)

/-- The signature payload fields read by verifySignatureUtil. -/
structure SignatureData where
  signature : String
  wallet_address : String
deriving DecidableEq

/-- The old-schema message reconstructed by the verifiers in the source
(src/dist/index.js line 160, src/index.js lines 595 to 598, src/verifier.js
line 83). -/
def paddedMessage (verificationHash : String) : String :=
  "I sign the following page verification_hash: [0x" ++ verificationHash ++ "]"

/-- The message signed by the builder, doSign in src/notarize.js lines 95 to
99 (also doSignMetamask line 150). -/
def signMessage (verificationHash : String) : String :=
  "I sign this revision: [" ++ verificationHash ++ "]"

/-- Embeds verifySignatureUtil from src/dist/index.js lines 154 to 172. The
external ethers primitives embody EIP-191 personal-sign recovery and are
modelled by the parameters hashMessage and recoverAddress; recoverAddress
returns none when the library throws, which the source catches, leaving
signatureOk false. -/
def verifySignatureUtil (recoverAddress : String → String → Option String)
    (hashMessage : String → String) (data : SignatureData)
    (verificationHash : String) : Bool × String :=
  if verificationHash == "" then (false, "Verification hash must not be empty")
  else
    match recoverAddress (hashMessage (paddedMessage verificationHash)) data.signature with
    | some recoveredAddress =>
      let signatureOk := jsToLower recoveredAddress == jsToLower data.wallet_address
      (signatureOk, if signatureOk then "Signature is Valid" else "Signature is invalid")
    | none => (false, "An error occured retrieving signature")

/-- C9: with an empty verification hash (as passed for a signature whose
revision has an empty previous verification hash, the genesis case),
verifySignatureUtil reports failure with the fixed message, and the recovery
primitive is never consulted: the result is identical under any two recovery
and hashing functions. -/
theorem claim9_empty_hash (recoverAddress recoverAddress2 : String → String → Option String)
    (hashMessage hashMessage2 : String → String) (data : SignatureData) :
    verifySignatureUtil recoverAddress hashMessage data "" =
      (false, "Verification hash must not be empty") ∧
    verifySignatureUtil recoverAddress hashMessage data "" =
      verifySignatureUtil recoverAddress2 hashMessage2 data "" :=
  ⟨rfl, rfl⟩

/-- C5 counterexample recovery oracle: recovery over the builder's message
"I sign this revision: [p]" yields the declared wallet, recovery over any
other message yields a different address. -/
def claim5Recover : String → String → Option String :=
  fun hashedMessage _ =>
    if hashedMessage == signMessage "p" then some "0xAB" else some "0xCD"

/-- C5 counterexample payload. -/
def claim5Data : SignatureData := ⟨"sig", "0xab"⟩

/-- C5 counterexample: the claim says the signature sub-result passes iff
EIP-191 recovery over the message "I sign this revision: [previous hash]"
matches the declared wallet, but the verifier in the source reconstructs the
old-schema message "I sign the following page verification_hash: [0x...]", so
with this concrete recovery oracle the code fails although the claimed
condition holds. -/
theorem claim5_counterexample :
    ¬ (((verifySignatureUtil claim5Recover id claim5Data "p").1 = true) ↔
       (Option.map jsToLower (claim5Recover (id (signMessage "p")) claim5Data.signature) =
         some (jsToLower claim5Data.wallet_address))) := by
  decide

/-- C5 amended: for a non-empty previous verification hash, the signature
sub-result of the v1.2 verifier passes iff EIP-191 recovery from the hashed
old-schema message "I sign the following page verification_hash: [0x" ++
previous hash ++ "]" and the signature succeeds and equals
signature_wallet_address case-insensitively; the message "I sign this
revision: [...]" is only signed by the builder, never checked by the
verifiers present in the source. -/
theorem claim5_amended (recoverAddress : String → String → Option String)
    (hashMessage : String → String) (data : SignatureData) (vh : String)
    (hvh : vh ≠ "") :
    ((verifySignatureUtil recoverAddress hashMessage data vh).1 = true) ↔
      Option.map jsToLower
          (recoverAddress (hashMessage (paddedMessage vh)) data.signature) =
        some (jsToLower data.wallet_address) := by
  have hbeq : ¬ ((vh == "") = true) := by
    simpa using hvh
  rw [verifySignatureUtil, if_neg hbeq]
  cases hrec : recoverAddress (hashMessage (paddedMessage vh)) data.signature with
  | none => simp
  | some r => simp

/-- C5 witness: the amended theorem applied at a concrete non-empty hash and a
concrete recovery oracle. -/
theorem claim5_amended_witness :
    ("p" : String) ≠ "" ∧
    (((verifySignatureUtil (fun _ _ => some "0xAB") id ⟨"sig", "0xab"⟩ "p").1 = true) ↔
      Option.map jsToLower
          ((fun (_ _ : String) => some "0xAB") (id (paddedMessage "p")) (⟨"sig", "0xab"⟩ : SignatureData).signature) =
        some (jsToLower (⟨"sig", "0xab"⟩ : SignatureData).wallet_address)) :=
  ⟨by decide, claim5_amended (fun _ _ => some "0xAB") id ⟨"sig", "0xab"⟩ "p" (by decide)⟩

/-- The result record of checkTransaction. -/
structure TxCheckResult where
  verificationHashMatches : Bool
  message : String
  successful : Bool
deriving DecidableEq

/-- JavaScript String.prototype.slice for the ranges used by the source. -/
def jsSlice (s : String) (a b : Nat) : String := String.mk ((s.data.drop a).take (b - a))

/-- Embeds checkTransaction from src/dist/index.js lines 69 to 101, with the
JSON-RPC fetch replaced by its result: none models a transaction the provider
does not know (the catch branch around the network layer is outside the pure
core). -/
def checkTransaction (txInputData : Option String) (expectedVerificationHash : String) : TxCheckResult :=
  match txInputData with
  | none => ⟨false, "Transaction not found", false⟩
  | some inputData =>
    if inputData.startsWith "0x9cef4ea1" then
      let actualVerificationHash := jsSlice inputData 10 (10 + 128)
      let hashMatches := jsToLower actualVerificationHash == jsToLower expectedVerificationHash
      ⟨hashMatches,
       if hashMatches then "Verification hash matches" else "Verification hash does not match",
       hashMatches⟩
    else ⟨false, "Transaction data does not contain expected function selector", false⟩

/-- C6: a fetched transaction succeeds the witness payload check iff its input
data starts with the function selector 0x9cef4ea1 and the 128 characters after
the selector equal the expected root case-insensitively; without the selector
it is rejected regardless of the rest of the payload. -/
theorem claim6_selector_check (inputData expectedVerificationHash : String) :
    (checkTransaction (some inputData) expectedVerificationHash).successful =
      (inputData.startsWith "0x9cef4ea1" &&
        (jsToLower (jsSlice inputData 10 (10 + 128)) == jsToLower expectedVerificationHash)) := by
  by_cases h : inputData.startsWith "0x9cef4ea1" = true
  · by_cases hm : jsToLower (jsSlice inputData 10 (10 + 128)) == jsToLower expectedVerificationHash
    all_goals simp [checkTransaction, h, hm]
  · simp [checkTransaction, h]

/-- The metadata field the timestamp getters read. -/
structure RevisionMetadataTs where
  time_stamp : String
deriving DecidableEq

/-- A v1.2 revision restricted to the metadata the timestamp getters read. -/
structure RevisionWithMetadata where
  metadata : RevisionMetadataTs
deriving DecidableEq

/-- One page of v1.2 page data: insertion-ordered revisions keyed by hash. -/
structure OfflinePage where
  revisions : List (String × RevisionWithMetadata)
deriving DecidableEq

/-- The pageData argument of the timestamp getters. -/
structure PageDataContainer where
  pages : List OfflinePage
deriving DecidableEq

/-- Outcome of a JavaScript expression that may throw a TypeError. -/
inductive JsResult (α : Type) where
  | value : α → JsResult α
  | typeError : JsResult α
deriving DecidableEq

/-- Embeds getTimestampDirect from src/dist/index.js lines 41 to 48: with a
non-empty pages list it reads the first revision of the first page without
optional chaining, so a first page with no revisions throws a TypeError
(revisions[undefined] is undefined and .metadata dereferences it); with an
empty pages list it returns undefined, modelled as value none. -/
def getTimestampDirect (pageData : PageDataContainer) : JsResult (Option String) :=
  match pageData.pages with
  | [] => JsResult.value none
  | firstPage :: _ =>
    match firstPage.revisions with
    | [] => JsResult.typeError
    | (_, r) :: _ => JsResult.value (some r.metadata.time_stamp)

/-- Embeds getTimestampSafe from src/dist/index.js lines 49 to 51, whose
optional chaining yields undefined instead of throwing. -/
def getTimestampSafe (pageData : PageDataContainer) : Option String :=
  match pageData.pages with
  | [] => none
  | firstPage :: _ =>
    match firstPage.revisions with
    | [] => none
    | (_, r) :: _ => some r.metadata.time_stamp

/-- C10: when the pages list is non-empty and its first page has at least one
revision, getTimestampDirect and getTimestampSafe return the same (present)
timestamp; when the pages list is empty, getTimestampDirect returns
undefined. -/
theorem claim10_timestamp_getters (pageData : PageDataContainer) :
    (∀ p rest, pageData.pages = p :: rest → p.revisions ≠ [] →
      getTimestampDirect pageData = JsResult.value (getTimestampSafe pageData) ∧
        (getTimestampSafe pageData).isSome = true) ∧
    (pageData.pages = [] → getTimestampDirect pageData = JsResult.value none) := by
  constructor
  · rintro p rest hp hr
    cases hrev : p.revisions with
    | nil => exact absurd hrev hr
    | cons hd tl =>
      obtain ⟨k, r⟩ := hd
      simp [getTimestampDirect, getTimestampSafe, hp, hrev]
  · intro hp
    simp [getTimestampDirect, hp]

/-- C10 witness page data with one page holding one revision. -/
def claim10Pages1 : PageDataContainer := ⟨[⟨[("h", ⟨⟨"20240101000000"⟩⟩)]⟩]⟩

/-- C10 witness page data with an empty pages list. -/
def claim10Pages2 : PageDataContainer := ⟨[]⟩

/-- C10 witness: the theorem applied at concrete page data for both cases. -/
theorem claim10_timestamp_getters_witness :
    (getTimestampDirect claim10Pages1 = JsResult.value (getTimestampSafe claim10Pages1) ∧
      (getTimestampSafe claim10Pages1).isSome = true) ∧
    getTimestampDirect claim10Pages2 = JsResult.value none :=
  ⟨(claim10_timestamp_getters claim10Pages1).1 ⟨[("h", ⟨⟨"20240101000000"⟩⟩)]⟩ [] rfl (by decide),
   (claim10_timestamp_getters claim10Pages2).2 rfl⟩

/-- The per-revision aggregate flag of a v1.2 revision verification result. -/
structure RevisionResult where
  successful : Bool
deriving DecidableEq

/-- The chain-level result record of verifyAquaChain. -/
structure HashChainResult where
  successful : Bool
  revisionResults : List RevisionResult
deriving DecidableEq

/-- Embeds the aggregation loop of verifyAquaChain, src/dist/index.js lines
326 to 332: successful starts true and the loop breaks at the first failed
revision result. -/
def aggregateSuccess : List RevisionResult → Bool
  | [] => true
  | r :: rest => if r.successful then aggregateSuccess rest else false

/-- Embeds verifyAquaChain from src/dist/index.js lines 315 to 334,
parametrized by the per-revision verifier (in the source an await of
verifyRevision whose result is pushed without inspection): the first loop runs
the verifier on every revision of the chain in key order, the second loop
aggregates the collected results. -/
def verifyAquaChain {α : Type} (verifyRevision : α → RevisionResult)
    (revisions : List (String × α)) : HashChainResult :=
  let revisionResults := revisions.map (fun p => verifyRevision p.2)
  ⟨aggregateSuccess revisionResults, revisionResults⟩

/-- The outcome of the legacy verifyRevision used by the chain loop of
src/index.js: the verification hash it returns and the isCorrect flag. -/
structure LegacyRevisionOutcome where
  verificationHash : String
  isCorrect : Bool
deriving DecidableEq

/-- Embeds the revision loop of the legacy verifyPage, src/index.js lines 672
to 737, parametrized by the per-revision verifier, which the source feeds the
revision id and the threaded previous verification hash. Each produced detail
is pushed (modelled by its revision id) and the loop returns INVALID
immediately when a revision is not correct; on completion the status is
NORECORD for an empty chain and VERIFIED otherwise. -/
def verifyPageLoop (verifyRevision : Nat → String → LegacyRevisionOutcome)
    (total : Nat) : List Nat → String → Nat → List Nat → String × List Nat
  | [], _, count, details =>
    (if count = total then (if count = 0 then "NORECORD" else "VERIFIED") else "INVALID",
     details.reverse)
  | revid :: rest, previousVerificationHash, count, details =>
    let outcome := verifyRevision revid previousVerificationHash
    let details2 := revid :: details
    if outcome.isCorrect then
      verifyPageLoop verifyRevision total rest outcome.verificationHash (count + 1) details2
    else ("INVALID", details2.reverse)

/-- Embeds verifyPage of src/index.js restricted to its revision loop: the
previous verification hash starts empty and the count starts at zero. -/
def verifyPage (verifyRevision : Nat → String → LegacyRevisionOutcome)
    (verifiedRevIds : List Nat) : String × List Nat :=
  verifyPageLoop verifyRevision verifiedRevIds.length verifiedRevIds "" 0 []

/-- C3 counterexample verifier: every revision fails. -/
def claim3Verifier : Nat → String → LegacyRevisionOutcome := fun _ _ => ⟨"h", false⟩

/-- C3 counterexample: the claim says chain verification runs the revision
verifier on every revision even when an earlier one fails, but the legacy
verifyPage cited by the claim returns INVALID at the first failing revision:
on a two-revision chain whose first revision fails, only one revision detail
is produced and the second revision is never verified. -/
theorem claim3_counterexample :
    (verifyPage claim3Verifier [1, 2]).1 = "INVALID" ∧
    (verifyPage claim3Verifier [1, 2]).2 = [1] ∧
    ¬ ((verifyPage claim3Verifier [1, 2]).2.length = [1, 2].length) := by
  decide

/-- The break-at-first-failure aggregation equals the conjunction of all
per-revision flags. -/
theorem aggregateSuccess_eq_all (l : List RevisionResult) :
    aggregateSuccess l = l.all (fun r => r.successful) := by
  induction l with
  | nil => rfl
  | cons r rest ih => by_cases h : r.successful <;> simp [aggregateSuccess, h, ih]

/-- C3 amended: the v1.2 verifyAquaChain runs the revision verifier on every
revision of the chain in insertion order with no short-circuit (one result per
revision, in order) and its aggregate flag is the conjunction of the
per-revision results; the legacy verifyPage of src/index.js instead returns
INVALID at the first failing revision without verifying the rest. -/
theorem claim3_amended {α : Type} (verifyRevision : α → RevisionResult)
    (revisions : List (String × α)) :
    (verifyAquaChain verifyRevision revisions).revisionResults =
      revisions.map (fun p => verifyRevision p.2) ∧
    (verifyAquaChain verifyRevision revisions).revisionResults.length = revisions.length ∧
    (verifyAquaChain verifyRevision revisions).successful =
      (verifyAquaChain verifyRevision revisions).revisionResults.all (fun r => r.successful) := by
  refine ⟨rfl, by simp [verifyAquaChain], ?_⟩
  exact aggregateSuccess_eq_all (revisions.map (fun p => verifyRevision p.2))

/-- Decimal rendering of a natural number (digit characters drawn from the
hex alphabet), total via fuel. -/
def natToStringAux : Nat → Nat → List Char
  | 0, _ => []
  | fuel + 1, n =>
    if n < 10 then [hexDigitChars.getD n '0']
    else natToStringAux fuel (n / 10) ++ [hexDigitChars.getD (n % 10) '0']

/-- Decimal rendering of a natural number as a string. -/
def natToString (n : Nat) : String := String.mk (natToStringAux (n + 1) n)

/-- JSON escaping of one character, as JSON.stringify performs it. -/
def jsonEscapeChar (c : Char) : List Char :=
  if c = '"' then ['\\', '"']
  else if c = '\\' then ['\\', '\\']
  else if c.toNat = 8 then ['\\', 'b']
  else if c.toNat = 9 then ['\\', 't']
  else if c.toNat = 10 then ['\\', 'n']
  else if c.toNat = 12 then ['\\', 'f']
  else if c.toNat = 13 then ['\\', 'r']
  else if c.toNat < 32 then
    ['\\', 'u', '0', '0', hexDigitChars.getD (c.toNat / 16) '0', hexDigitChars.getD (c.toNat % 16) '0']
  else [c]

/-- A JSON string literal as JSON.stringify renders it. -/
def jsonStr (s : String) : String :=
  "\"" ++ String.mk ((s.data.map jsonEscapeChar).flatten) ++ "\""

/-- A JavaScript value stored in a revision attribute map. -/
inductive JsValue where
  | str : String → JsValue
  | num : Nat → JsValue
  | boolean : Bool → JsValue
  | strList : List String → JsValue
deriving DecidableEq

/-- JSON rendering of an attribute value, as JSON.stringify performs it. -/
def JsValue.json : JsValue → String
  | .str v => jsonStr v
  | .num v => natToString v
  | .boolean v => if v then "true" else "false"
  | .strList v => "[" ++ String.intercalate "," (v.map jsonStr) ++ "]"

/-- Plain stringification of an attribute value per the spec, section 4.A:
strings as themselves, numbers as decimal, booleans as true or false, nested
structures as canonical JSON. -/
def JsValue.plain : JsValue → String
  | .str v => v
  | .num v => natToString v
  | .boolean v => if v then "true" else "false"
  | .strList v => "[" ++ String.intercalate "," (v.map jsonStr) ++ "]"

/-- A revision object of notarize.js. Absent JavaScript properties are none
(or the empty list for the promoted form fields). The declaration order of the
optional fields matches the property creation order of the source for each
revision kind it builds; fields of different kinds never coexist. -/
structure Revision where
  previous_verification_hash : String
  local_timestamp : String
  revision_type : String
  content : Option String := none
  file_hash : Option String := none
  file_nonce : Option String := none
  signature : Option String := none
  signature_public_key : Option String := none
  signature_wallet_address : Option String := none
  signature_type : Option String := none
  witness_merkle_root : Option String := none
  witness_timestamp : Option Nat := none
  witness_network : Option String := none
  witness_smart_contract_address : Option String := none
  witness_transaction_hash : Option String := none
  witness_sender_account_address : Option String := none
  witness_merkle_proof : Option (List String) := none
  form_fields : List (String × String) := []
  link_type : Option String := none
  link_require_indepth_verification : Option Bool := none
  link_verification_hashes : Option (List String) := none
  link_file_hashes : Option (List String) := none
  leaves : Option (List String) := none
deriving DecidableEq

/-- An optional string attribute as zero or one map entries. -/
def optStr (k : String) : Option String → List (String × JsValue)
  | some v => [(k, JsValue.str v)]
  | none => []

/-- An optional numeric attribute as zero or one map entries. -/
def optNat (k : String) : Option Nat → List (String × JsValue)
  | some v => [(k, JsValue.num v)]
  | none => []

/-- An optional boolean attribute as zero or one map entries. -/
def optBool (k : String) : Option Bool → List (String × JsValue)
  | some v => [(k, JsValue.boolean v)]
  | none => []

/-- An optional string-list attribute as zero or one map entries. -/
def optStrList (k : String) : Option (List String) → List (String × JsValue)
  | some v => [(k, JsValue.strList v)]
  | none => []

/-- The attribute map of a revision in property creation order. -/
def revisionEntries (r : Revision) : List (String × JsValue) :=
  [("previous_verification_hash", JsValue.str r.previous_verification_hash),
   ("local_timestamp", JsValue.str r.local_timestamp),
   ("revision_type", JsValue.str r.revision_type)]
  ++ optStr "content" r.content
  ++ optStr "file_hash" r.file_hash
  ++ optStr "file_nonce" r.file_nonce
  ++ optStr "signature" r.signature
  ++ optStr "signature_public_key" r.signature_public_key
  ++ optStr "signature_wallet_address" r.signature_wallet_address
  ++ optStr "signature_type" r.signature_type
  ++ optStr "witness_merkle_root" r.witness_merkle_root
  ++ optNat "witness_timestamp" r.witness_timestamp
  ++ optStr "witness_network" r.witness_network
  ++ optStr "witness_smart_contract_address" r.witness_smart_contract_address
  ++ optStr "witness_transaction_hash" r.witness_transaction_hash
  ++ optStr "witness_sender_account_address" r.witness_sender_account_address
  ++ optStrList "witness_merkle_proof" r.witness_merkle_proof
  ++ r.form_fields.map (fun p => (p.1, JsValue.str p.2))
  ++ optStr "link_type" r.link_type
  ++ optBool "link_require_indepth_verification" r.link_require_indepth_verification
  ++ optStrList "link_verification_hashes" r.link_verification_hashes
  ++ optStrList "link_file_hashes" r.link_file_hashes
  ++ optStrList "leaves" r.leaves

/-- JSON.stringify of a revision object: keys in insertion order, no
whitespace. -/
def stringifyRevision (r : Revision) : String :=
  "\x7b" ++ String.intercalate ","
    ((revisionEntries r).map (fun p => jsonStr p.1 ++ ":" ++ p.2.json)) ++ "\x7d"

/-- Modelled from the spec: dict2Leaves of the builder's newer index.js, which
notarize.js imports but which is not under src. Following section 4.A of the
spec, the ordered sequence of sha3_512 over key concatenated with the
deterministic stringification of the value, in insertion order of the map. -/
def dict2Leaves (r : Revision) : List String :=
  (revisionEntries r).map (fun p => getHashSum (p.1 ++ p.2.plain))

/-- Modelled from the spec: one level of the binary Merkle tree of section
4.B, SHA3-512 as the inner-node hash, an odd node promoted unchanged (the
source delegates to the external merkletreejs library with duplicateOdd
false). -/
def merkleLevelUp (hs : List String) : List String :=
  match hs with
  | x :: y :: rest => getHashSum (x ++ y) :: merkleLevelUp rest
  | l => l

/-- Modelled from the spec: the Merkle root of a list of leaves, levels built
by merkleLevelUp until one node remains. -/
def merkleRootFuel : Nat → List String → String
  | 0, hs => hs.headD ""
  | fuel + 1, hs =>
    match hs with
    | [] => ""
    | [x] => x
    | longer => merkleRootFuel fuel (merkleLevelUp longer)

/-- The Merkle-mode verification hash of a list of leaves. -/
def merkleRootHex (hs : List String) : String := merkleRootFuel hs.length hs

/-- Modelled from the spec: the Merkle proof for one leaf position, the list
of sibling hashes from the leaf to the root, no sibling recorded where an odd
node is promoted. The source computes these per-tip proofs with
tree2.getHexProof into merkleProofArray and then discards them. -/
def merkleProofIdx : Nat → List String → Nat → List String
  | 0, _, _ => []
  | fuel + 1, level, i =>
    if level.length ≤ 1 then []
    else
      (match (if i % 2 == 0 then level.get? (i + 1) else level.get? (i - 1)) with
       | some sibling => [sibling]
       | none => []) ++ merkleProofIdx fuel (merkleLevelUp level) (i / 2)

/-- Modelled from the spec: the Merkle proof for a leaf, located by its first
position in the leaves list. -/
def merkleProofFor (leaves : List String) (leaf : String) : List String :=
  match leaves.indexOf? leaf with
  | some i => merkleProofIdx leaves.length leaves i
  | none => []

/-- An aqua object: insertion-ordered revisions keyed by verification hash,
plus the file index mapping hashes to external names. -/
structure AquaObject where
  revisions : List (String × Revision)
  file_index : List (String × String)
deriving DecidableEq

/-- JavaScript object property assignment obj[k] = v: overwrite in place when
the key exists, else append, preserving insertion order. -/
def setKV {α : Type} (l : List (String × α)) (k : String) (v : α) : List (String × α) :=
  if l.any (fun p => p.1 == k) then l.map (fun p => if p.1 == k then (k, v) else p)
  else l ++ [(k, v)]

/-- JavaScript delete obj[k]: removes the property, preserving the order of
the remaining ones. -/
def deleteKV {α : Type} (l : List (String × α)) (k : String) : List (String × α) :=
  l.filter (fun p => !(p.1 == k))

/-- JavaScript property read obj[k]. -/
def getKV {α : Type} (l : List (String × α)) (k : String) : Option α :=
  (l.find? (fun p => p.1 == k)).map Prod.snd

/-- Object.keys: the keys in insertion order. -/
def objectKeys {α : Type} (l : List (String × α)) : List String := l.map Prod.fst

/-- The module-level CLI configuration of notarize.js read by the builder. -/
structure NotarizeConfig where
  filename : String
  form_file_name : String
  linkURIs : String
  enableContent : Bool
deriving DecidableEq

/-- The mutable state of an AquaTree instance of notarize.js. -/
structure AquaTreeState where
  aquaObject : AquaObject
  lastRevisionHash : String
deriving DecidableEq

/-- The record createNewRevision returns: the verification hash and the
revision payload. -/
structure VerificationOut where
  verification_hash : String
  data : Revision
deriving DecidableEq

/-- Embeds checkFileHashAlreadyNotarized from src/notarize.js lines 512 to 524
as the predicate deciding the abort: some existing revision carries a truthy
file_hash strictly equal to the new one (the source then logs and exits the
process). -/
def checkFileHashAlreadyNotarized (fileHash : String) (aquaObject : AquaObject) : Bool :=
  aquaObject.revisions.any (fun p =>
    match p.2.file_hash with
    | some fh => (fh != "") && (fh == fileHash)
    | none => false)

/-- Embeds maybeUpdateFileIndex from src/notarize.js lines 526 to 550: a form
or file revision maps its verification hash (not its file hash) to the form or
target file name; a link revision maps each linked verification hash to the
link URI at the same position (a missing URI renders, via the template
literal, as the string undefined); every other revision type leaves the file
index unchanged. -/
def maybeUpdateFileIndex (cfg : NotarizeConfig) (aquaObject : AquaObject)
    (verificationData : VerificationOut) (revisionType : String) : AquaObject :=
  if revisionType == "form" then
    { aquaObject with
      file_index := setKV aquaObject.file_index verificationData.verification_hash cfg.form_file_name }
  else if revisionType == "file" then
    { aquaObject with
      file_index := setKV aquaObject.file_index verificationData.verification_hash cfg.filename }
  else if revisionType == "link" then
    let linkURIsArray := cfg.linkURIs.splitOn ","
    let linkVHs := verificationData.data.link_verification_hashes.getD []
    { aquaObject with
      file_index := linkVHs.enum.foldl (fun acc p => setKV acc p.2 (linkURIsArray.getD p.1 "undefined")) aquaObject.file_index }
  else aquaObject

/-- The signer result consumed by prepareSignature (src/notarize.js lines 446
to 493). -/
structure SignatureResult where
  signature : String
  signature_public_key : String
  signature_wallet_address : String
  signature_type : String
deriving DecidableEq

/-- The witness backend result consumed by prepareWitness: transaction hash,
publisher, timestamp, network and contract address. -/
structure WitnessBackendResult where
  transaction_hash : String
  publisher : String
  witness_timestamp : Nat
  witness_network : String
  smart_contract_address : String
deriving DecidableEq

/-- Embeds prepareWitness from src/notarize.js lines 302 to 423 with the
backend transport (Ethereum, Nostr or TSA) replaced by its result: the witness
fields spread into a revision, the attached Merkle proof being the single
witnessed hash. -/
def prepareWitness (backend : WitnessBackendResult) (verificationHash : String)
    (r : Revision) : Revision :=
  { r with
    witness_merkle_root := some verificationHash,
    witness_timestamp := some backend.witness_timestamp,
    witness_network := some backend.witness_network,
    witness_smart_contract_address := some backend.smart_contract_address,
    witness_transaction_hash := some backend.transaction_hash,
    witness_sender_account_address := some backend.publisher,
    witness_merkle_proof := some [verificationHash] }

/-- The data the builder obtains from its collaborators (file system, signer,
witness backend, linked aqua files), supplied as inputs to the pure model. -/
structure EffectInputs where
  fileContent : String
  fileNonce : String
  signatureResult : SignatureResult
  witnessBackend : WitnessBackendResult
  formContent : String
  formNonce : String
  formFields : List (String × String)
  linkVerificationHashes : List String
  linkFileHashes : List String
deriving DecidableEq

/-- The abstract builder failures; in the source each is a logged message
followed by process.exit(1), fatal to the in-progress append. -/
inductive BuilderError where
  | duplicateContent
  | invalidLink
  | invalidRevisionType
deriving DecidableEq

/-- The JavaScript in-operator applied to the file index: whether a hash is
one of its keys. -/
def aquaFileIndexHasKey (aquaObject : AquaObject) (k : String) : Bool :=
  aquaObject.file_index.any (fun p => p.1 == k)

/-- Embeds AquaTree.createNewRevision from src/notarize.js lines 628 to 763.
External effects are supplied through eff; a process exit of the source is an
error result. Every check runs before any mutation of this.aquaObject, so an
error leaves the state unchanged; the model expresses this by returning the
new state only on success. -/
def createNewRevision (cfg : NotarizeConfig) (st : AquaTreeState) (timestamp : String)
    (revisionType : String) (enableScalar : Bool) (eff : EffectInputs) :
    Except BuilderError (AquaTreeState × VerificationOut) :=
  if !(["file", "signature", "witness", "form", "link"].contains revisionType) then
    Except.error BuilderError.invalidRevisionType
  else
    let base : Revision :=
      { previous_verification_hash := st.lastRevisionHash,
        local_timestamp := timestamp,
        revision_type := revisionType }
    let assembled : Except BuilderError Revision :=
      if revisionType == "file" then
        let fileHash := getHashSumBuffer eff.fileContent
        if checkFileHashAlreadyNotarized fileHash st.aquaObject then
          Except.error BuilderError.duplicateContent
        else
          Except.ok { base with
            content := if cfg.enableContent then some eff.fileContent else none,
            file_hash := some fileHash,
            file_nonce := some eff.fileNonce }
      else if revisionType == "signature" then
        Except.ok { base with
          signature := some eff.signatureResult.signature,
          signature_public_key := some eff.signatureResult.signature_public_key,
          signature_wallet_address := some eff.signatureResult.signature_wallet_address,
          signature_type := some eff.signatureResult.signature_type }
      else if revisionType == "witness" then
        Except.ok (prepareWitness eff.witnessBackend st.lastRevisionHash base)
      else if revisionType == "form" then
        let fileHash := getHashSumBuffer eff.formContent
        if checkFileHashAlreadyNotarized fileHash st.aquaObject then
          Except.error BuilderError.duplicateContent
        else
          Except.ok { base with
            file_hash := some fileHash,
            file_nonce := some eff.formNonce,
            form_fields := eff.formFields.map (fun p => ("forms_" ++ p.1, p.2)) }
      else
        let linkURIsArray := cfg.linkURIs.splitOn ","
        if linkURIsArray.any (fun uri => uri.endsWith ".aqua.json") then
          Except.error BuilderError.invalidLink
        else if eff.linkFileHashes.any
            (fun fh => aquaFileIndexHasKey st.aquaObject fh) then
          Except.error BuilderError.invalidLink
        else
          Except.ok { base with
            link_type := some "aqua",
            link_require_indepth_verification := some true,
            link_verification_hashes := some eff.linkVerificationHashes,
            link_file_hashes := some eff.linkFileHashes }
    match assembled with
    | Except.error e => Except.error e
    | Except.ok verificationData =>
      let pair :=
        if enableScalar then
          ("0x" ++ getHashSum (stringifyRevision verificationData), verificationData)
        else
          let leaves := dict2Leaves verificationData
          (merkleRootHex leaves, { verificationData with leaves := some leaves })
      let out : VerificationOut := ⟨pair.1, pair.2⟩
      let newObject : AquaObject :=
        { revisions := setKV st.aquaObject.revisions pair.1 pair.2,
          file_index := st.aquaObject.file_index }
      let newObject2 := maybeUpdateFileIndex cfg newObject out revisionType
      Except.ok (⟨newObject2, pair.1⟩, out)

/-- A JavaScript runtime error. -/
inductive JsError where
  | referenceError : String → JsError
  | typeError : String → JsError
deriving DecidableEq

/-- The file-index reversal switch of removeLastRevision: only the file and
link cases exist (no form case); the file case deletes the key file_hash,
although maybeUpdateFileIndex indexes file revisions under their verification
hash (an absent file_hash deletes the key undefined, as the template of the
delete operator renders it). -/
def removeFileIndexEntries (lastRevision : Revision)
    (fileIndex : List (String × String)) : List (String × String) :=
  if lastRevision.revision_type == "file" then
    deleteKV fileIndex (lastRevision.file_hash.getD "undefined")
  else if lastRevision.revision_type == "link" then
    (lastRevision.link_verification_hashes.getD []).foldl
      (fun acc vh => deleteKV acc vh) fileIndex
  else fileIndex

/-- Embeds AquaTree.removeLastRevision from src/notarize.js lines 598 to 626
as written: after the file-index switch, the statement deleting
revisions[lastRevisionHash] reads the unqualified identifier lastRevisionHash,
which is not in scope (the field is this.lastRevisionHash), so the method
throws a ReferenceError; the revisions map is never modified and nothing is
serialized. The result pairs the aqua object at the throw point with the
error. A state whose tip hash is not a revision key throws a TypeError reading
revision_type of undefined before any mutation. -/
def removeLastRevision (st : AquaTreeState) : AquaObject × Option JsError :=
  match getKV st.aquaObject.revisions st.lastRevisionHash with
  | none => (st.aquaObject, some (JsError.typeError "lastRevision is undefined"))
  | some lastRevision =>
    ({ revisions := st.aquaObject.revisions,
       file_index := removeFileIndexEntries lastRevision st.aquaObject.file_index },
     some (JsError.referenceError "lastRevisionHash is not defined"))

/-- The removal the surrounding code intends (reading this.lastRevisionHash):
the same file-index reversal, deletion of the tip revision, and a destruction
flag raised exactly when no revisions remain (the source then deletes the aqua
file). -/
def removeLastRevisionIntended (st : AquaTreeState) : AquaObject × Bool :=
  match getKV st.aquaObject.revisions st.lastRevisionHash with
  | none => (st.aquaObject, false)
  | some lastRevision =>
    let revisions := deleteKV st.aquaObject.revisions st.lastRevisionHash
    ({ revisions := revisions,
       file_index := removeFileIndexEntries lastRevision st.aquaObject.file_index },
     revisions.length == 0)

/-- C4 configuration: notarizing hello.txt without content embedding. -/
def claim4Config : NotarizeConfig := ⟨"hello.txt", "", "", false⟩

/-- C4 genesis revision over the file bytes hello. -/
def claim4Genesis : Revision :=
  { previous_verification_hash := "", local_timestamp := "20240101000000",
    revision_type := "file", file_hash := some (getHashSumBuffer "hello"),
    file_nonce := some "nonce0" }

/-- C4 starting chain state S: one file revision, indexed under its
verification hash as maybeUpdateFileIndex created it. -/
def claim4State : AquaTreeState :=
  ⟨⟨[("0xgenesis", claim4Genesis)], [("0xgenesis", "hello.txt")]⟩, "0xgenesis"⟩

/-- C4 effect inputs: the appended revision X hashes the file bytes world. -/
def claim4Effects : EffectInputs :=
  ⟨"world", "nonce1", ⟨"", "", "", ""⟩, ⟨"", "", 0, "", ""⟩, "", "", [], [], []⟩

/-- C4 state after appending X to S. -/
def claim4Appended : AquaTreeState :=
  match createNewRevision claim4Config claim4State "20240101000001" "file" true claim4Effects with
  | Except.ok p => p.1
  | Except.error _ => claim4State

set_option maxRecDepth 1000000 in
set_option maxHeartbeats 1000000 in
/-- C4 evaluation: appending X succeeds (two revisions), and then remove_tip
fails to restore S: as written it throws a ReferenceError with the revision
still present, and even under the intended reading the file index is not
restored, because the append indexed X under its verification hash while the
removal deletes the key file_hash (and a form revision would not be reversed
at all); only the revisions map would be restored. -/
theorem claim4_rollback_eval :
    claim4Appended.aquaObject.revisions.length = 2 ∧
    (removeLastRevision claim4Appended).2 =
      some (JsError.referenceError "lastRevisionHash is not defined") ∧
    (removeLastRevision claim4Appended).1.revisions = claim4Appended.aquaObject.revisions ∧
    (removeLastRevisionIntended claim4Appended).1.revisions = claim4State.aquaObject.revisions ∧
    (removeLastRevisionIntended claim4Appended).1.file_index ≠ claim4State.aquaObject.file_index ∧
    (removeLastRevisionIntended claim4Appended).1 ≠ claim4State.aquaObject := by
  decide

/-- A chain member whose truthy file hash equals the computed one makes
checkFileHashAlreadyNotarized abort. -/
theorem checkFileHash_true_of_mem (aq : AquaObject) (c k : String) (r : Revision)
    (hmem : (k, r) ∈ aq.revisions)
    (hfh : r.file_hash = some (getHashSumBuffer c)) :
    checkFileHashAlreadyNotarized (getHashSumBuffer c) aq = true := by
  rw [checkFileHashAlreadyNotarized, List.any_eq_true]
  refine ⟨(k, r), hmem, ?_⟩
  simp only [hfh]
  have hne : ¬ (getHashSumBuffer c = "") := sha3_512_ne_empty c
  simp [hne]

/-- C7: an attempted append of a file or form revision whose computed file
hash equals the file hash of a revision already in the chain fails with
DUPLICATE_CONTENT; the source exits before touching the aqua object, so the
failed append leaves the chain unchanged (the model returns an error carrying
no new state). -/
theorem claim7_duplicate_content (cfg : NotarizeConfig) (st : AquaTreeState)
    (timestamp : String) (enableScalar : Bool) (eff : EffectInputs)
    (k : String) (r : Revision) (hmem : (k, r) ∈ st.aquaObject.revisions) :
    (r.file_hash = some (getHashSumBuffer eff.fileContent) →
      createNewRevision cfg st timestamp "file" enableScalar eff =
        Except.error BuilderError.duplicateContent) ∧
    (r.file_hash = some (getHashSumBuffer eff.formContent) →
      createNewRevision cfg st timestamp "form" enableScalar eff =
        Except.error BuilderError.duplicateContent) := by
  constructor
  · intro hfh
    have hdup := checkFileHash_true_of_mem st.aquaObject eff.fileContent k r hmem hfh
    simp [createNewRevision, hdup]
  · intro hfh
    have hdup := checkFileHash_true_of_mem st.aquaObject eff.formContent k r hmem hfh
    simp [createNewRevision, hdup]

/-- C7 witness revision already in the chain, over the file bytes same. -/
def claim7Rev : Revision :=
  { previous_verification_hash := "", local_timestamp := "t", revision_type := "file",
    file_hash := some (getHashSumBuffer "same"), file_nonce := some "n" }

/-- C7 witness chain state holding that revision. -/
def claim7State : AquaTreeState := ⟨⟨[("0xold", claim7Rev)], [("0xold", "f.txt")]⟩, "0xold"⟩

/-- C7 witness configuration. -/
def claim7Config : NotarizeConfig := ⟨"f.txt", "g.json", "", false⟩

/-- C7 witness effect inputs: both the file and the form bytes repeat same. -/
def claim7Effects : EffectInputs :=
  ⟨"same", "n2", ⟨"", "", "", ""⟩, ⟨"", "", 0, "", ""⟩, "same", "n3", [], [], []⟩

set_option maxRecDepth 1000000 in
set_option maxHeartbeats 1000000 in
/-- C7 witness: the theorem applied at a concrete duplicate append, for the
file and the form branches. -/
theorem claim7_duplicate_content_witness :
    createNewRevision claim7Config claim7State "t2" "file" true claim7Effects =
      Except.error BuilderError.duplicateContent ∧
    createNewRevision claim7Config claim7State "t2" "form" true claim7Effects =
      Except.error BuilderError.duplicateContent :=
  ⟨(claim7_duplicate_content claim7Config claim7State "t2" true claim7Effects
      "0xold" claim7Rev (List.mem_cons_self _ _)).1 rfl,
   (claim7_duplicate_content claim7Config claim7State "t2" true claim7Effects
      "0xold" claim7Rev (List.mem_cons_self _ _)).2 rfl⟩

/-- Embeds createRevisionWithMultipleAquaChain from src/notarize.js lines 191
to 300, file reads and the witness backend replaced by inputs. The source
computes the per-tip Merkle proofs into merkleProofArray and never uses them:
the witness_merkle_proof it attaches is lastRevionHashes, the list of all tip
hashes, identical for every chain. Each chain receives a Merkle-mode witness
revision parented at its own tip. -/
def createRevisionWithMultipleAquaChain (cfg : NotarizeConfig)
    (backend : WitnessBackendResult) (timestamp : String)
    (all_file_aqua_objects : List AquaObject) : List AquaObject :=
  let lastRevionHashes := all_file_aqua_objects.map
    (fun f => (objectKeys f.revisions).getLast?.getD "undefined")
  let merkleRoot := merkleRootHex lastRevionHashes
  let witnessResult := fun r =>
    { prepareWitness backend merkleRoot r with witness_merkle_proof := some lastRevionHashes }
  all_file_aqua_objects.map (fun currentFileAquaObject =>
    let latestRevisionKey := (objectKeys currentFileAquaObject.revisions).getLast?.getD "undefined"
    let verificationData : Revision := witnessResult
      { previous_verification_hash := latestRevisionKey,
        local_timestamp := timestamp,
        revision_type := "witness" }
    let leaves := dict2Leaves verificationData
    let vd := { verificationData with leaves := some leaves }
    let verificationHash := merkleRootHex leaves
    let obj2 : AquaObject :=
      { revisions := setKV currentFileAquaObject.revisions verificationHash vd,
        file_index := currentFileAquaObject.file_index }
    maybeUpdateFileIndex cfg obj2 ⟨verificationHash, vd⟩ "witness")

/-- C2 configuration: two files a and b notarized together. -/
def claim2Config : NotarizeConfig := ⟨"a,b", "", "", false⟩

/-- C2 witness backend result. -/
def claim2Backend : WitnessBackendResult :=
  ⟨"0xtx", "0xpub", 1700000000, "sepolia", "0xcontract"⟩

/-- C2 tip revision of chain A. -/
def claim2RevA : Revision :=
  { previous_verification_hash := "", local_timestamp := "t0", revision_type := "file",
    file_hash := some "fha", file_nonce := some "na" }

/-- C2 tip revision of chain B. -/
def claim2RevB : Revision :=
  { previous_verification_hash := "", local_timestamp := "t0", revision_type := "file",
    file_hash := some "fhb", file_nonce := some "nb" }

/-- C2 chain A with tip 0xaa. -/
def claim2ChainA : AquaObject := ⟨[("0xaa", claim2RevA)], [("0xaa", "a.txt")]⟩

/-- C2 chain B with tip 0xbb. -/
def claim2ChainB : AquaObject := ⟨[("0xbb", claim2RevB)], [("0xbb", "b.txt")]⟩

/-- The JavaScript assignment always leaves the assigned pair in the object:
in place when the key existed, appended otherwise. -/
theorem setKV_mem {α : Type} (l : List (String × α)) (k : String) (v : α) :
    (k, v) ∈ setKV l k v := by
  rw [setKV]
  by_cases h : l.any (fun p => p.1 == k)
  · rw [if_pos h]
    rw [List.any_eq_true] at h
    obtain ⟨p, hp, hpk⟩ := h
    rw [List.mem_map]
    exact ⟨p, hp, by simp [hpk]⟩
  · rw [if_neg h]
    exact List.mem_append_right _ (List.mem_cons_self _ _)

/-- C2: in the multi-chain witness operation, every chain of the result holds
an appended witness revision whose witness_merkle_proof is the full list of
all chains' tip hashes, the same list for every chain, not a per-tip sibling
proof; concretely, for two chains with distinct tips 0xaa and 0xbb both
appended revisions carry ["0xaa", "0xbb"], while the per-tip proofs the claim
describes (and the source computes into merkleProofArray and discards) are
["0xbb"] for 0xaa and ["0xaa"] for 0xbb. -/
theorem claim2_same_proof_for_all_chains :
    (∀ (cfg : NotarizeConfig) (backend : WitnessBackendResult) (ts : String)
       (objs : List AquaObject) (res : AquaObject),
       res ∈ createRevisionWithMultipleAquaChain cfg backend ts objs →
       ∃ vh vd, (vh, vd) ∈ res.revisions ∧ vd.revision_type = "witness" ∧
         vd.witness_merkle_proof =
           some (objs.map (fun f => (objectKeys f.revisions).getLast?.getD "undefined"))) ∧
    ([claim2ChainA, claim2ChainB].map
        (fun f => (objectKeys f.revisions).getLast?.getD "undefined") = ["0xaa", "0xbb"]) ∧
    ("0xaa" : String) ≠ "0xbb" ∧
    merkleProofFor ["0xaa", "0xbb"] "0xaa" = ["0xbb"] ∧
    merkleProofFor ["0xaa", "0xbb"] "0xbb" = ["0xaa"] ∧
    (["0xaa", "0xbb"] : List String) ≠ merkleProofFor ["0xaa", "0xbb"] "0xaa" := by
  refine ⟨?_, by decide, by decide, by decide, by decide, by decide⟩
  intro cfg backend ts objs res hres
  rw [createRevisionWithMultipleAquaChain] at hres
  rw [List.mem_map] at hres
  obtain ⟨obj, hobj, rfl⟩ := hres
  exact ⟨_, _, setKV_mem obj.revisions _ _, rfl, rfl⟩

/-- C2 witness: the universal part applied to the concrete two-chain failing
input, the member being the first mapped chain. -/
theorem claim2_same_proof_witness :
    ∃ res, res ∈ createRevisionWithMultipleAquaChain claim2Config claim2Backend "t1"
        [claim2ChainA, claim2ChainB] ∧
      ∃ vh vd, (vh, vd) ∈ res.revisions ∧ vd.revision_type = "witness" ∧
        vd.witness_merkle_proof =
          some ([claim2ChainA, claim2ChainB].map
            (fun f => (objectKeys f.revisions).getLast?.getD "undefined")) := by
  have hne : createRevisionWithMultipleAquaChain claim2Config claim2Backend "t1"
      [claim2ChainA, claim2ChainB] ≠ [] := by
    simp [createRevisionWithMultipleAquaChain]
  obtain ⟨res, hres⟩ := List.exists_mem_of_ne_nil _ hne
  exact ⟨res, hres,
    claim2_same_proof_for_all_chains.1 claim2Config claim2Backend "t1"
      [claim2ChainA, claim2ChainB] res hres⟩

end Aqua
